import Mathlib

/-!
Verification of the itinerary state manager of `src/public/js/itinerary.js`.

The embedding is shallow:

* JavaScript strings are Lean `String`s; JS string truthiness (`!s`) is
  emptiness of the character list, and `String.prototype.trim` is modelled
  by `jsTrim`, which drops leading and trailing whitespace characters.
* JSON values (the results of `JSON.parse` / the arguments of
  `JSON.stringify`) are the inductive `Json`.  `JSON.stringify` of the data
  handled here always succeeds and produces non-empty text from which
  `JSON.parse` recovers the same JSON tree, so the `localStorage` entry
  under the key `itinerary.trips.v1` is modelled at the JSON-tree level
  as a `Payload`: absent, empty text, text that does not parse, or a
  parsed JSON value.
* The browser's `new Date(dateText + "T" + timeText)` parser and
  `Date.prototype.toISOString` are environment-provided; they are modelled
  by a parameter `parseDate : String → Option String` returning the ISO-UTC
  text of the instant, or `none` when the `Date` is invalid (`NaN` time).
  `new Date().toISOString()` at creation time is the parameter `nowIso`.
* The in-memory list `state.trips` is a `List Json`: JavaScript is untyped
  and `loadState` adopts whatever array `JSON.parse` produced, so list
  elements are arbitrary JSON values; `onAdd` pushes the object literal
  built by `collectTrip` (encoded by `tripToJson`).
* Handlers return the new system state together with their observable
  effects (`alert` shown, warning logged, export performed); all modelled
  functions are total, which reflects that the originals never throw.
-/

namespace Itin

/-- JSON values, as produced by `JSON.parse` and consumed by
`JSON.stringify`.  Numbers are modelled as integers; no claim depends on
non-integral numbers. -/
inductive Json where
  | null : Json
  | bool (b : Bool) : Json
  | num (n : Int) : Json
  | str (s : String) : Json
  | arr (elems : List Json) : Json
  | obj (fields : List (String × Json)) : Json

/-- Whitespace test used by the model of `String.prototype.trim`. -/
def wsChar (c : Char) : Bool := c.isWhitespace

/-- Drop leading and trailing whitespace from a character list. -/
def trimChars (l : List Char) : List Char :=
  ((l.dropWhile wsChar).reverse.dropWhile wsChar).reverse

/-- Model of `String.prototype.trim`. -/
def jsTrim (s : String) : String := ⟨trimChars s.data⟩

/-- JS truthiness of a string: every string except `""` is truthy. -/
def jsTruthy (s : String) : Bool := !s.data.isEmpty

/-- Model of the JS expression `s || ""` (itinerary.js lines 116-122). -/
def jsOrEmpty (s : String) : String := if jsTruthy s then s else ""

/-- One of the `depart` / `arrive` objects of a trip
(itinerary.js lines 115-124): raw date text, raw time text, and the
derived ISO-UTC instant text (`""` when the pair did not parse). -/
structure Leg where
  date : String
  time : String
  isoUtc : String
deriving DecidableEq

/-- The object built by `collectTrip` (itinerary.js lines 108-128). -/
structure Trip where
  train : String
  origin : String
  destination : String
  depart : Leg
  arrive : Leg
  notes : String
  createdAt : String
deriving DecidableEq

/-- The eight input fields read by the controller
(itinerary.js lines 185-194); a missing value reads as `""`. -/
structure FormValues where
  train : String
  origin : String
  dest : String
  departDate : String
  departTime : String
  arriveDate : String
  arriveTime : String
  notes : String
deriving DecidableEq

/-- Environment-provided behaviour: the local-timezone `Date` text parser
composed with `toISOString` (returning `none` for an invalid date), and
the current instant's ISO text. -/
structure Env where
  parseDate : String → Option String
  nowIso : String

/-- `buildLocalDate` (itinerary.js lines 12-16): `null` when either text
is falsy, otherwise the result of parsing `dateStr + "T" + timeStr`. -/
def buildLocalDate (parseDate : String → Option String) (dateStr timeStr : String) :
    Option String :=
  if !jsTruthy dateStr || !jsTruthy timeStr then none
  else parseDate (dateStr ++ "T" ++ timeStr)

/-- `requiredOK` (itinerary.js lines 105-107): the three required inputs
are truthy after trimming. -/
def requiredOK (f : FormValues) : Bool :=
  jsTruthy (jsTrim f.train) && jsTruthy (jsTrim f.origin) && jsTruthy (jsTrim f.dest)

/-- The JS conditional `dt ? dt.toISOString() : ""` (itinerary.js
lines 118 and 123). -/
def isoOrEmpty : Option String → String
  | some iso => iso
  | none => ""

/-- `collectTrip` (itinerary.js lines 108-128). -/
def collectTrip (env : Env) (f : FormValues) : Trip :=
  { train := jsTrim f.train
    origin := jsTrim f.origin
    destination := jsTrim f.dest
    depart :=
      { date := jsOrEmpty f.departDate
        time := jsOrEmpty f.departTime
        isoUtc := isoOrEmpty (buildLocalDate env.parseDate f.departDate f.departTime) }
    arrive :=
      { date := jsOrEmpty f.arriveDate
        time := jsOrEmpty f.arriveTime
        isoUtc := isoOrEmpty (buildLocalDate env.parseDate f.arriveDate f.arriveTime) }
    notes := jsTrim f.notes
    createdAt := env.nowIso }

/-- The JSON object literal a `Leg` denotes. -/
def legToJson (g : Leg) : Json :=
  Json.obj [("date", Json.str g.date), ("time", Json.str g.time),
            ("isoUtc", Json.str g.isoUtc)]

/-- The JSON object literal a `Trip` denotes: exactly the object pushed by
`onAdd` (itinerary.js line 148). -/
def tripToJson (t : Trip) : Json :=
  Json.obj [("train", Json.str t.train), ("origin", Json.str t.origin),
            ("destination", Json.str t.destination),
            ("depart", legToJson t.depart), ("arrive", legToJson t.arrive),
            ("notes", Json.str t.notes), ("createdAt", Json.str t.createdAt)]

/-- JS property access `j.k` on a parsed JSON value. -/
def getField (j : Json) (k : String) : Option Json :=
  match j with
  | Json.obj fields => fields.lookup k
  | _ => none

/-- Property access that also requires the value to be a string. -/
def getStr (j : Json) (k : String) : Option String :=
  match getField j k with
  | some (Json.str s) => some s
  | _ => none

/-- Decoder inverse to `legToJson`, used to state field-for-field
round-trip equality. -/
def jsonToLeg (j : Json) : Option Leg :=
  match getStr j "date", getStr j "time", getStr j "isoUtc" with
  | some d, some t, some i => some { date := d, time := t, isoUtc := i }
  | _, _, _ => none

/-- Decoder inverse to `tripToJson`, used to state field-for-field
round-trip equality. -/
def jsonToTrip (j : Json) : Option Trip :=
  match getStr j "train", getStr j "origin", getStr j "destination",
        getField j "depart", getField j "arrive",
        getStr j "notes", getStr j "createdAt" with
  | some tr, some og, some ds, some dj, some aj, some no, some ca =>
    match jsonToLeg dj, jsonToLeg aj with
    | some dl, some al =>
      some { train := tr, origin := og, destination := ds,
             depart := dl, arrive := al, notes := no, createdAt := ca }
    | _, _ => none
  | _, _, _, _, _, _, _ => none

/-- A JSON list element whose `train`, `origin` and `destination`
properties are strings that are non-empty and not whitespace-only. -/
def validStr : Option String → Bool
  | some s => jsTruthy (jsTrim s)
  | none => false

/-- Required-field validity of one element of `state.trips`. -/
def validTripJson (j : Json) : Bool :=
  validStr (getStr j "train") && validStr (getStr j "origin") &&
    validStr (getStr j "destination")

/-- What the `localStorage` entry under `itinerary.trips.v1` holds, as
seen through `localStorage.getItem` and `JSON.parse`: absent (`null`
item), empty text (falsy, like absent, at itinerary.js line 57), text on
which `JSON.parse` throws, or text parsing to a JSON value. -/
inductive Payload where
  | absent : Payload
  | emptyText : Payload
  | malformed : Payload
  | parsed (j : Json) : Payload

/-- The mutable state the handlers share: `state.trips` and the
`localStorage` entry. -/
structure Sys where
  trips : List Json
  storage : Payload

/-- `saveState` (itinerary.js lines 47-53): writes
`JSON.stringify(state.trips)` under the key.  Stringification of a JSON
tree always succeeds here and yields non-empty text that parses back to
the same tree, so the new payload is `parsed` of the trips array. -/
def saveState (sys : Sys) : Sys :=
  { sys with storage := Payload.parsed (Json.arr sys.trips) }

/-- `loadState` (itinerary.js lines 54-63) on a payload and the current
trips: returns the new trips and whether `console.warn` ran.  Absent or
empty text returns early; a parse error is caught and warned about; a
parsed array replaces the trips wholesale; any other parsed value is
ignored silently. -/
def loadStateResult (p : Payload) (cur : List Json) : List Json × Bool :=
  match p with
  | Payload.absent => (cur, false)
  | Payload.emptyText => (cur, false)
  | Payload.malformed => (cur, true)
  | Payload.parsed (Json.arr l) => (l, false)
  | Payload.parsed _ => (cur, false)

/-- `loadState` acting on the system state; the Bool records whether a
warning was logged. -/
def loadState (sys : Sys) : Sys × Bool :=
  ({ sys with trips := (loadStateResult sys.storage sys.trips).1 },
   (loadStateResult sys.storage sys.trips).2)

/-- `onAdd` (itinerary.js lines 142-152); the Bool records whether the
blocking `alert` was shown.  On validation failure the handler returns
before touching `state.trips` or storage. -/
def onAdd (env : Env) (f : FormValues) (sys : Sys) : Sys × Bool :=
  if !requiredOK f then
    (sys, true)
  else
    (saveState { sys with trips := sys.trips ++ [tripToJson (collectTrip env f)] }, false)

/-- The start index `Array.prototype.splice` actually uses (ECMA-262
`ArraySpeciesCreate` step for `splice`): a negative start counts from the
end, clamped at 0; a start past the end is clamped to the length. -/
def spliceStart (n : Nat) (i : Int) : Nat :=
  if i < 0 then (i + n).toNat else min i.toNat n

/-- `state.trips.splice(i, 1)` (itinerary.js line 158): remove one
element at the resolved start position (none when the start is past the
end). -/
def spliceDelete (l : List Json) (i : Int) : List Json :=
  l.take (spliceStart l.length i) ++ l.drop (spliceStart l.length i + 1)

/-- `onDelete` (itinerary.js lines 153-161) once a row and an integer
index were resolved: `Number.isInteger` admits every integer (negative
ones included), then `splice(idx, 1)` runs and the list is persisted.  A
missing row or a non-integer index returns before this function, leaving
the state untouched. -/
def onDelete (i : Int) (sys : Sys) : Sys :=
  saveState { sys with trips := spliceDelete sys.trips i }

/-- Observable outcome of `onSave`: either the blocking notice, or a
download of the given JSON document. -/
inductive ExportResult where
  | notice : ExportResult
  | file (doc : Json) : ExportResult

/-- The exported document `{ trips: state.trips }` (itinerary.js
line 168); `JSON.stringify(_, null, 2)` pretty-prints this tree. -/
def exportDoc (trips : List Json) : Json :=
  Json.obj [("trips", Json.arr trips)]

/-- `onSave` (itinerary.js lines 162-177): alert on an empty list,
otherwise build and download the snapshot.  The handler never assigns
`state.trips` and never writes storage, so the state component is
returned unchanged. -/
def onSave (sys : Sys) : Sys × ExportResult :=
  if sys.trips.length = 0 then
    (sys, ExportResult.notice)
  else
    (sys, ExportResult.file (exportDoc sys.trips))

/-- System states reachable from the boot state (empty list, nothing
stored) by the operations of the page: load, add, delete. -/
inductive Reachable : Sys → Prop where
  | init : Reachable { trips := [], storage := Payload.absent }
  | add (env : Env) (f : FormValues) {sys : Sys} :
      Reachable sys → Reachable (onAdd env f sys).1
  | del (i : Int) {sys : Sys} :
      Reachable sys → Reachable (onDelete i sys)
  | load {sys : Sys} :
      Reachable sys → Reachable (loadState sys).1

/-- Storage invariant maintained by the closed system: nothing stored
yet, or the serialization of a list all of whose elements are valid. -/
def storageOK (p : Payload) : Prop :=
  p = Payload.absent ∨
    ∃ l, p = Payload.parsed (Json.arr l) ∧ l.all validTripJson = true

/-- Full system invariant. -/
def sysOK (sys : Sys) : Prop :=
  sys.trips.all validTripJson = true ∧ storageOK sys.storage

/-- The boot state: empty trip list, nothing stored yet. -/
def sysInit : Sys := { trips := [], storage := Payload.absent }

/-! ## Helper lemmas about strings and trimming -/

theorem trimChars_eq_rdropWhile (l : List Char) :
    trimChars l = List.rdropWhile wsChar (l.dropWhile wsChar) := rfl

theorem getLast?_dropWhile_of_ne_nil (p : Char → Bool) (l : List Char)
    (h : l.dropWhile p ≠ []) : (l.dropWhile p).getLast? = l.getLast? := by
  induction l with
  | nil => simp at h
  | cons a l ih =>
    by_cases hp : p a
    · rw [List.dropWhile_cons_of_pos hp] at h ⊢
      have hl : l ≠ [] := by
        rintro rfl
        simp [List.dropWhile] at h
      obtain ⟨b, l2, rfl⟩ := List.exists_cons_of_ne_nil hl
      rw [ih h, List.getLast?_cons_cons]
    · rw [List.dropWhile_cons_of_neg hp]

theorem head?_trimChars (l : List Char) :
    (trimChars l).head? = (l.dropWhile wsChar).head? := by
  rw [trimChars_eq_rdropWhile]
  rcases hr : List.rdropWhile wsChar (l.dropWhile wsChar) with _ | ⟨c, r⟩
  · rw [List.rdropWhile_eq_nil_iff] at hr
    rcases hd : (l.dropWhile wsChar) with _ | ⟨b, m⟩
    · rfl
    · exfalso
      have hb : wsChar b = false := by
        have := List.head?_dropWhile_not wsChar l
        rw [hd] at this
        simpa using this
      have : wsChar b = true := hr b (by rw [hd]; exact List.mem_cons_self b m)
      rw [hb] at this
      exact Bool.false_ne_true this
  · have hne : (l.dropWhile wsChar).reverse.dropWhile wsChar ≠ [] := by
      intro hnil
      rw [List.rdropWhile, hnil] at hr
      exact List.noConfusion hr
    calc (c :: r).head?
        = (List.rdropWhile wsChar (l.dropWhile wsChar)).head? := by rw [hr]
      _ = ((l.dropWhile wsChar).reverse.dropWhile wsChar).reverse.head? := rfl
      _ = ((l.dropWhile wsChar).reverse.dropWhile wsChar).getLast? := List.head?_reverse _
      _ = (l.dropWhile wsChar).reverse.getLast? :=
          getLast?_dropWhile_of_ne_nil wsChar _ hne
      _ = (l.dropWhile wsChar).head? := List.getLast?_reverse _

theorem dropWhile_trimChars (l : List Char) :
    (trimChars l).dropWhile wsChar = trimChars l := by
  rcases ht : trimChars l with _ | ⟨c, r⟩
  · rfl
  · have hc : (l.dropWhile wsChar).head? = some c := by
      rw [← head?_trimChars, ht]; rfl
    have hcf : wsChar c = false := by
      have := List.head?_dropWhile_not wsChar l
      rw [hc] at this
      simpa using this
    rw [List.dropWhile_cons_of_neg (by simp [hcf])]

theorem trimChars_idem (l : List Char) : trimChars (trimChars l) = trimChars l := by
  rw [trimChars_eq_rdropWhile (trimChars l), dropWhile_trimChars,
      trimChars_eq_rdropWhile l, List.rdropWhile_idempotent]

theorem jsTrim_idem (s : String) : jsTrim (jsTrim s) = jsTrim s :=
  congrArg String.mk (trimChars_idem s.data)

theorem jsTruthy_eq_false_iff (s : String) : jsTruthy s = false ↔ s = "" := by
  constructor
  · intro h
    apply String.ext
    have : s.data.isEmpty = true := by
      unfold jsTruthy at h
      simpa using h
    rw [List.isEmpty_iff] at this
    simp [this]
  · rintro rfl
    rfl

theorem jsTruthy_eq_true_iff (s : String) : jsTruthy s = true ↔ s ≠ "" := by
  constructor
  · intro h hs
    rw [← jsTruthy_eq_false_iff] at hs
    rw [h] at hs
    exact Bool.noConfusion hs
  · intro h
    cases hb : jsTruthy s with
    | true => rfl
    | false => exact absurd ((jsTruthy_eq_false_iff s).1 hb) h

theorem jsOrEmpty_eq (s : String) : jsOrEmpty s = s := by
  unfold jsOrEmpty
  cases hb : jsTruthy s with
  | true => rfl
  | false => rw [if_neg (by simp), (jsTruthy_eq_false_iff s).1 hb]

/-! ## Helper lemmas about the JSON encoding of trips -/

theorem getStr_tripToJson_train (t : Trip) :
    getStr (tripToJson t) "train" = some t.train := rfl

theorem getStr_tripToJson_origin (t : Trip) :
    getStr (tripToJson t) "origin" = some t.origin := rfl

theorem getStr_tripToJson_destination (t : Trip) :
    getStr (tripToJson t) "destination" = some t.destination := rfl

theorem jsonToLeg_legToJson (g : Leg) : jsonToLeg (legToJson g) = some g := rfl

theorem jsonToTrip_tripToJson (t : Trip) : jsonToTrip (tripToJson t) = some t := rfl

theorem mapM_jsonToTrip_map_tripToJson (ts : List Trip) :
    (ts.map tripToJson).mapM jsonToTrip = some ts := by
  induction ts with
  | nil => rfl
  | cons t ts ih =>
    rw [List.map_cons, List.mapM_cons, jsonToTrip_tripToJson, ih]
    rfl

theorem validTripJson_collectTrip (env : Env) (f : FormValues)
    (h : requiredOK f = true) :
    validTripJson (tripToJson (collectTrip env f)) = true := by
  unfold requiredOK at h
  simp only [Bool.and_eq_true] at h
  unfold validTripJson
  rw [getStr_tripToJson_train, getStr_tripToJson_origin, getStr_tripToJson_destination]
  show (jsTruthy (jsTrim (jsTrim f.train)) && jsTruthy (jsTrim (jsTrim f.origin)) &&
      jsTruthy (jsTrim (jsTrim f.dest))) = true
  rw [jsTrim_idem, jsTrim_idem, jsTrim_idem, h.1.1, h.1.2, h.2]
  rfl

/-! ## The reachability invariant (claim C2) -/

theorem sysOK_init : sysOK sysInit :=
  ⟨rfl, Or.inl rfl⟩

theorem sysOK_onAdd (env : Env) (f : FormValues) (sys : Sys) (h : sysOK sys) :
    sysOK (onAdd env f sys).1 := by
  unfold onAdd
  cases hr : requiredOK f with
  | false => simpa using h
  | true =>
    rw [if_neg (by simp)]
    have hall : (sys.trips ++ [tripToJson (collectTrip env f)]).all validTripJson = true := by
      rw [List.all_append, h.1]
      simp [List.all_cons, validTripJson_collectTrip env f hr]
    exact ⟨hall, Or.inr ⟨_, rfl, hall⟩⟩

theorem all_spliceDelete (l : List Json) (i : Int)
    (h : l.all validTripJson = true) :
    (spliceDelete l i).all validTripJson = true := by
  rw [List.all_eq_true] at h ⊢
  intro x hx
  unfold spliceDelete at hx
  rcases List.mem_append.1 hx with hx | hx
  · exact h x (List.take_subset _ _ hx)
  · exact h x (List.drop_subset _ _ hx)

theorem sysOK_onDelete (i : Int) (sys : Sys) (h : sysOK sys) :
    sysOK (onDelete i sys) := by
  have hall := all_spliceDelete sys.trips i h.1
  exact ⟨hall, Or.inr ⟨_, rfl, hall⟩⟩

theorem sysOK_loadState (sys : Sys) (h : sysOK sys) :
    sysOK (loadState sys).1 := by
  rcases h with ⟨htr, hst⟩
  rcases hst with hst | ⟨l, hst, hl⟩
  · unfold loadState
    rw [hst]
    exact ⟨htr, Or.inl rfl⟩
  · unfold loadState
    rw [hst]
    exact ⟨hl, Or.inr ⟨l, rfl, hl⟩⟩

theorem reachable_sysOK (sys : Sys) (h : Reachable sys) : sysOK sys := by
  induction h with
  | init => exact sysOK_init
  | add env f hr ih => exact sysOK_onAdd env f _ ih
  | del i hr ih => exact sysOK_onDelete i _ ih
  | load hr ih => exact sysOK_loadState _ ih

/-! ## Helper lemmas about splice and the add handler -/

theorem spliceDelete_of_nonneg_lt (l : List Json) (i : Int) (h0 : 0 ≤ i)
    (hlt : i.toNat < l.length) :
    spliceDelete l i = l.take i.toNat ++ l.drop (i.toNat + 1) := by
  unfold spliceDelete spliceStart
  rw [if_neg (by omega), Nat.min_eq_left (by omega)]

theorem spliceDelete_of_ge (l : List Json) (i : Int)
    (h : (l.length : Int) ≤ i) :
    spliceDelete l i = l := by
  unfold spliceDelete spliceStart
  rw [if_neg (by omega), Nat.min_eq_right (by omega),
      List.take_length, List.drop_eq_nil_of_le (by omega), List.append_nil]

theorem spliceDelete_of_neg (l : List Json) (i : Int) (h : i < 0) :
    spliceDelete l i =
      l.take (i + l.length).toNat ++ l.drop ((i + l.length).toNat + 1) := by
  unfold spliceDelete spliceStart
  rw [if_pos h]

theorem requiredOK_eq_true (f : FormValues)
    (h : jsTrim f.train ≠ "" ∧ jsTrim f.origin ≠ "" ∧ jsTrim f.dest ≠ "") :
    requiredOK f = true := by
  unfold requiredOK
  rw [(jsTruthy_eq_true_iff _).2 h.1, (jsTruthy_eq_true_iff _).2 h.2.1,
      (jsTruthy_eq_true_iff _).2 h.2.2]
  rfl

theorem onAdd_eq_push (env : Env) (f : FormValues) (sys : Sys)
    (h : requiredOK f = true) :
    onAdd env f sys =
      (saveState { sys with trips := sys.trips ++ [tripToJson (collectTrip env f)] },
       false) := by
  unfold onAdd
  rw [h]
  rfl

/-! ## Concrete inputs used by the witnesses and counterexamples -/

/-- A date parser that recognizes the depart pair of `formEx` and rejects
everything else, together with a fixed creation instant. -/
def envEx : Env :=
  { parseDate := fun s =>
      if s = "2024-06-01T08:00" then some "2024-06-01T15:00:00.000Z" else none
    nowIso := "2024-05-30T12:00:00.000Z" }

/-- An environment whose date parser rejects every input. -/
def envFail : Env :=
  { parseDate := fun _ => none
    nowIso := "2024-05-30T12:00:00.000Z" }

/-- A filled-in form with valid required fields. -/
def formEx : FormValues :=
  { train := " 14 ", origin := "SJC", dest := "SAC"
    departDate := "2024-06-01", departTime := "08:00"
    arriveDate := "2024-06-01", arriveTime := "10:30"
    notes := " window seat " }

/-- The same form with a whitespace-only origin. -/
def formBlank : FormValues :=
  { formEx with origin := "   " }

/-- A two-element trip list used to exercise delete. -/
def sysTwo : Sys :=
  { trips := [Json.str "a", Json.str "b"], storage := Payload.absent }

/-- A one-element trip list used to exercise delete at a negative index. -/
def sysOne : Sys :=
  { trips := [Json.str "a"], storage := Payload.absent }

/-! ## The claims -/

/-- Claim C1, amended.  For an integer index `i` with `0 ≤ i < n`,
`delete(i)` removes exactly the element at position `i` (the result is
`take i ++ drop (i+1)`, so the remaining elements keep their relative
order) and shrinks the list by one.  For an integer `i ≥ n` the list is
unchanged.  The original claim is wrong about negative integers: JS
`splice` counts a negative start from the end of the array, so
`delete(i)` for `i < 0` deletes at position `max(n + i, 0)` and removes
an element whenever the list is non-empty.  (A non-integer index fails
the `Number.isInteger` guard and never reaches `splice`.) -/
theorem claim_c1_delete (sys : Sys) (i : Int) :
    (0 ≤ i → i.toNat < sys.trips.length →
      (onDelete i sys).trips = sys.trips.take i.toNat ++ sys.trips.drop (i.toNat + 1) ∧
      (onDelete i sys).trips.length + 1 = sys.trips.length) ∧
    ((sys.trips.length : Int) ≤ i → (onDelete i sys).trips = sys.trips) ∧
    (i < 0 →
      (onDelete i sys).trips =
        sys.trips.take (i + sys.trips.length).toNat ++
          sys.trips.drop ((i + sys.trips.length).toNat + 1) ∧
      (sys.trips ≠ [] → (onDelete i sys).trips.length + 1 = sys.trips.length)) := by
  refine ⟨?_, ?_, ?_⟩
  · intro h0 hlt
    have he : (onDelete i sys).trips =
        sys.trips.take i.toNat ++ sys.trips.drop (i.toNat + 1) :=
      spliceDelete_of_nonneg_lt sys.trips i h0 hlt
    refine ⟨he, ?_⟩
    rw [he, List.length_append, List.length_take, List.length_drop]
    omega
  · intro hge
    exact spliceDelete_of_ge sys.trips i hge
  · intro hneg
    have he : (onDelete i sys).trips =
        sys.trips.take (i + sys.trips.length).toNat ++
          sys.trips.drop ((i + sys.trips.length).toNat + 1) :=
      spliceDelete_of_neg sys.trips i hneg
    refine ⟨he, fun hne => ?_⟩
    have hn : sys.trips.length ≠ 0 := fun h0 => hne (List.length_eq_zero.1 h0)
    rw [he, List.length_append, List.length_take, List.length_drop]
    omega

/-- Witness for C1: deleting index 0 from a two-element list keeps only
the second element; deleting index 5 changes nothing. -/
theorem claim_c1_delete_witness :
    (onDelete 0 sysTwo).trips = [Json.str "b"] ∧
    (onDelete 5 sysTwo).trips = [Json.str "a", Json.str "b"] := by
  constructor
  · have h := (claim_c1_delete sysTwo 0).1 (by omega) (by decide)
    rw [h.1]
    rfl
  · have h := (claim_c1_delete sysTwo 5).2.1 (by decide)
    rw [h]
    rfl

/-- Counterexample to C1 as stated: `-1` is outside `[0, n)`, yet
`delete(-1)` on the one-element list removes its element instead of
leaving the list unchanged. -/
theorem claim_c1_counterexample :
    (onDelete (-1) sysOne).trips = [] ∧
    (onDelete (-1) sysOne).trips ≠ sysOne.trips := by
  refine ⟨rfl, ?_⟩
  intro h
  rw [show (onDelete (-1) sysOne).trips = [] from rfl] at h
  exact List.noConfusion h

/-- Claim C2: in every state reachable from the boot state by load, add
and delete operations, every element of the trip list has `train`,
`origin` and `destination` fields that are non-empty, non-whitespace-only
strings. -/
theorem claim_c2_invariant (sys : Sys) (h : Reachable sys) :
    sys.trips.all validTripJson = true :=
  (reachable_sysOK sys h).1

/-- Witness for C2 at the state reached by one successful add. -/
theorem claim_c2_invariant_witness :
    (onAdd envEx formEx sysInit).1.trips.all validTripJson = true :=
  claim_c2_invariant _ (Reachable.add envEx formEx Reachable.init)

/-- Claim C3: when any of the three required fields trims to the empty
string, `onAdd` shows the blocking alert and returns the state
unchanged — same trip list, same storage, nothing persisted. -/
theorem claim_c3_add_blank (env : Env) (f : FormValues) (sys : Sys)
    (h : jsTrim f.train = "" ∨ jsTrim f.origin = "" ∨ jsTrim f.dest = "") :
    onAdd env f sys = (sys, true) := by
  have hro : requiredOK f = false := by
    unfold requiredOK
    rcases h with h | h | h <;> rw [(jsTruthy_eq_false_iff _).2 h] <;> simp
  unfold onAdd
  rw [hro]
  rfl

/-- Witness for C3: adding with a whitespace-only origin is rejected. -/
theorem claim_c3_add_blank_witness :
    onAdd envEx formBlank sysInit = (sysInit, true) :=
  claim_c3_add_blank envEx formBlank sysInit (Or.inr (Or.inl (by decide)))

/-- Claim C4: when all three required fields are non-empty after
trimming, `onAdd` appends exactly one new trip at the end of the list
(previous elements keep their positions and values), shows no alert, and
the new trip stores the required fields and the notes trimmed. -/
theorem claim_c4_add_appends (env : Env) (f : FormValues) (sys : Sys)
    (h : jsTrim f.train ≠ "" ∧ jsTrim f.origin ≠ "" ∧ jsTrim f.dest ≠ "") :
    (onAdd env f sys).1.trips = sys.trips ++ [tripToJson (collectTrip env f)] ∧
    (onAdd env f sys).1.trips.length = sys.trips.length + 1 ∧
    (∀ k : Nat, k < sys.trips.length →
      (onAdd env f sys).1.trips[k]? = sys.trips[k]?) ∧
    (onAdd env f sys).2 = false ∧
    (collectTrip env f).train = jsTrim f.train ∧
    (collectTrip env f).origin = jsTrim f.origin ∧
    (collectTrip env f).destination = jsTrim f.dest ∧
    (collectTrip env f).notes = jsTrim f.notes := by
  have he := onAdd_eq_push env f sys (requiredOK_eq_true f h)
  refine ⟨by rw [he]; rfl, ?_, ?_, by rw [he], rfl, rfl, rfl, rfl⟩
  · rw [he]
    show (sys.trips ++ [tripToJson (collectTrip env f)]).length = sys.trips.length + 1
    rw [List.length_append]
    rfl
  · intro k hk
    rw [he]
    show (sys.trips ++ [tripToJson (collectTrip env f)])[k]? = sys.trips[k]?
    exact List.getElem?_append_left hk

/-- Witness for C4: one successful add on the empty list yields a
one-element list whose trip holds the trimmed fields. -/
theorem claim_c4_add_appends_witness :
    (onAdd envEx formEx sysInit).1.trips.length = 1 ∧
    (collectTrip envEx formEx).train = "14" ∧
    (collectTrip envEx formEx).notes = "window seat" := by
  have h := claim_c4_add_appends envEx formEx sysInit ⟨by decide, by decide, by decide⟩
  refine ⟨?_, ?_, ?_⟩
  · rw [h.2.1]
    rfl
  · rw [h.2.2.2.2.1]
    decide
  · rw [h.2.2.2.2.2.2.2]
    decide

/-- Claim C5: saving a list of well-formed trips and loading it back
restores the very same in-memory list, and decoding the stored objects
recovers every trip field-for-field. -/
theorem claim_c5_roundtrip (ts : List Trip) (p : Payload) :
    (loadState (saveState { trips := ts.map tripToJson, storage := p })).1.trips
      = ts.map tripToJson ∧
    ((loadState (saveState { trips := ts.map tripToJson, storage := p })).1.trips.mapM
      jsonToTrip) = some ts := by
  constructor
  · rfl
  · show (ts.map tripToJson).mapM jsonToTrip = some ts
    exact mapM_jsonToTrip_map_tripToJson ts

/-- Claim C6, amended.  `loadState` never throws; an absent (or empty)
payload and a payload that fails to parse both leave the trips unchanged
(the default empty list at boot), with the warning logged only in the
parse-failure case; a payload parsing to a non-array value also leaves
the trips unchanged but — contrary to the original claim — logs no
warning; a payload parsing to an array replaces the trips wholesale with
its elements, with no per-element validation. -/
theorem claim_c6_load (cur : List Json) :
    (loadState { trips := cur, storage := Payload.absent }
      = ({ trips := cur, storage := Payload.absent }, false)) ∧
    (loadState { trips := cur, storage := Payload.emptyText }
      = ({ trips := cur, storage := Payload.emptyText }, false)) ∧
    (loadState { trips := cur, storage := Payload.malformed }
      = ({ trips := cur, storage := Payload.malformed }, true)) ∧
    (∀ l, loadState { trips := cur, storage := Payload.parsed (Json.arr l) }
      = ({ trips := l, storage := Payload.parsed (Json.arr l) }, false)) ∧
    (∀ j, (∀ l, j ≠ Json.arr l) →
      loadState { trips := cur, storage := Payload.parsed j }
        = ({ trips := cur, storage := Payload.parsed j }, false)) := by
  refine ⟨rfl, rfl, rfl, fun l => rfl, fun j hj => ?_⟩
  cases j with
  | arr l => exact absurd rfl (hj l)
  | null => rfl
  | bool b => rfl
  | num n => rfl
  | str s => rfl
  | obj fields => rfl

/-- Witness for C6: a payload parsing to the number 42 is ignored and
the empty list is kept. -/
theorem claim_c6_load_witness :
    loadState { trips := [], storage := Payload.parsed (Json.num 42) }
      = ({ trips := [], storage := Payload.parsed (Json.num 42) }, false) :=
  (claim_c6_load []).2.2.2.2 (Json.num 42) (fun _ h => Json.noConfusion h)

/-- Counterexample to C6 as stated: on the parseable non-array payload
`42`, the claim says a warning is logged, but the warning flag of
`loadState` is `false` — the branch at itinerary.js line 59 falls
through silently. -/
theorem claim_c6_counterexample :
    (loadState { trips := [], storage := Payload.parsed (Json.num 42) }).2 = false := rfl

/-- Claim C7: `toInstant` (modelled by `buildLocalDate` over an arbitrary
environment date parser) returns `none` exactly when either text is empty
or the combined text does not parse, and otherwise returns the parsed
instant; it is a total function, reflecting that the original never
throws. -/
theorem claim_c7_toInstant (pd : String → Option String) (d t : String) :
    (buildLocalDate pd d t = none ↔
      d = "" ∨ t = "" ∨ pd (d ++ "T" ++ t) = none) ∧
    (∀ iso, d ≠ "" → t ≠ "" → pd (d ++ "T" ++ t) = some iso →
      buildLocalDate pd d t = some iso) := by
  cases hd : jsTruthy d with
  | false =>
    have hd0 : d = "" := (jsTruthy_eq_false_iff d).1 hd
    have hb : buildLocalDate pd d t = none := by
      unfold buildLocalDate
      rw [hd]
      rfl
    exact ⟨by rw [hb]; exact ⟨fun _ => Or.inl hd0, fun _ => rfl⟩,
           fun iso hdn _ _ => absurd hd0 hdn⟩
  | true =>
    cases ht : jsTruthy t with
    | false =>
      have ht0 : t = "" := (jsTruthy_eq_false_iff t).1 ht
      have hb : buildLocalDate pd d t = none := by
        unfold buildLocalDate
        rw [hd, ht]
        rfl
      exact ⟨by rw [hb]; exact ⟨fun _ => Or.inr (Or.inl ht0), fun _ => rfl⟩,
             fun iso _ htn _ => absurd ht0 htn⟩
    | true =>
      have hdn : d ≠ "" := (jsTruthy_eq_true_iff d).1 hd
      have htn : t ≠ "" := (jsTruthy_eq_true_iff t).1 ht
      have hb : buildLocalDate pd d t = pd (d ++ "T" ++ t) := by
        unfold buildLocalDate
        rw [hd, ht]
        rfl
      constructor
      · rw [hb]
        refine ⟨fun h => Or.inr (Or.inr h), ?_⟩
        rintro (h | h | h)
        · exact absurd h hdn
        · exact absurd h htn
        · exact h
      · intro iso _ _ hp
        rw [hb, hp]

/-- Witness for C7: the recognized pair parses to its instant, and an
empty time text yields `none`. -/
theorem claim_c7_toInstant_witness :
    buildLocalDate envEx.parseDate "2024-06-01" "08:00"
      = some "2024-06-01T15:00:00.000Z" ∧
    buildLocalDate envEx.parseDate "2024-06-01" "" = none := by
  constructor
  · exact (claim_c7_toInstant envEx.parseDate "2024-06-01" "08:00").2
      "2024-06-01T15:00:00.000Z" (by decide) (by decide) (by decide)
  · exact (claim_c7_toInstant envEx.parseDate "2024-06-01" "").1.2
      (Or.inr (Or.inl rfl))

/-- Claim C8: with valid required fields, a depart or arrive pair that
fails to parse does not abort the add — the trip is still appended, with
the empty sentinel stored as that pair's instant and the raw date and
time text preserved as entered. -/
theorem claim_c8_parse_failure (env : Env) (f : FormValues) (sys : Sys)
    (h : jsTrim f.train ≠ "" ∧ jsTrim f.origin ≠ "" ∧ jsTrim f.dest ≠ "") :
    (onAdd env f sys).1.trips = sys.trips ++ [tripToJson (collectTrip env f)] ∧
    (onAdd env f sys).1.trips.length = sys.trips.length + 1 ∧
    (onAdd env f sys).2 = false ∧
    (buildLocalDate env.parseDate f.departDate f.departTime = none →
      (collectTrip env f).depart.isoUtc = "" ∧
      (collectTrip env f).depart.date = f.departDate ∧
      (collectTrip env f).depart.time = f.departTime) ∧
    (buildLocalDate env.parseDate f.arriveDate f.arriveTime = none →
      (collectTrip env f).arrive.isoUtc = "" ∧
      (collectTrip env f).arrive.date = f.arriveDate ∧
      (collectTrip env f).arrive.time = f.arriveTime) := by
  have he := onAdd_eq_push env f sys (requiredOK_eq_true f h)
  refine ⟨by rw [he]; rfl, ?_, by rw [he], ?_, ?_⟩
  · rw [he]
    show (sys.trips ++ [tripToJson (collectTrip env f)]).length = sys.trips.length + 1
    rw [List.length_append]
    rfl
  · intro hdep
    refine ⟨?_, jsOrEmpty_eq f.departDate, jsOrEmpty_eq f.departTime⟩
    show isoOrEmpty (buildLocalDate env.parseDate f.departDate f.departTime) = ""
    rw [hdep]
    rfl
  · intro harr
    refine ⟨?_, jsOrEmpty_eq f.arriveDate, jsOrEmpty_eq f.arriveTime⟩
    show isoOrEmpty (buildLocalDate env.parseDate f.arriveDate f.arriveTime) = ""
    rw [harr]
    rfl

/-- Witness for C8: under the always-failing parser the add still
appends, and the stored depart instant is the empty sentinel while the
raw texts survive. -/
theorem claim_c8_parse_failure_witness :
    (onAdd envFail formEx sysInit).1.trips.length = 1 ∧
    (collectTrip envFail formEx).depart.isoUtc = "" ∧
    (collectTrip envFail formEx).depart.date = "2024-06-01" := by
  have h := claim_c8_parse_failure envFail formEx sysInit ⟨by decide, by decide, by decide⟩
  refine ⟨?_, ?_, ?_⟩
  · rw [h.2.1]
    rfl
  · exact (h.2.2.2.1 rfl).1
  · exact (h.2.2.2.1 rfl).2.1

/-- Claim C9: exporting an empty list produces the blocking notice and
no file; exporting a non-empty list produces the document
`{ trips: <current ordered list> }` (pretty-printed by
`JSON.stringify(_, null, 2)`). -/
theorem claim_c9_export (sys : Sys) :
    (sys.trips = [] → onSave sys = (sys, ExportResult.notice)) ∧
    (sys.trips ≠ [] →
      onSave sys = (sys, ExportResult.file (Json.obj [("trips", Json.arr sys.trips)]))) := by
  constructor
  · intro h
    unfold onSave
    rw [h]
    rfl
  · intro h
    unfold onSave
    rw [if_neg (by rw [List.length_eq_zero]; exact h)]
    rfl

/-- Witness for C9: export on the boot state aborts with the notice;
export on a one-element list downloads the wrapped list. -/
theorem claim_c9_export_witness :
    onSave sysInit = (sysInit, ExportResult.notice) ∧
    onSave sysOne
      = (sysOne, ExportResult.file (Json.obj [("trips", Json.arr [Json.str "a"])])) :=
  ⟨(claim_c9_export sysInit).1 rfl,
   (claim_c9_export sysOne).2 (fun h => List.noConfusion h)⟩

/-- Claim C10: `onSave` neither mutates the in-memory trip list nor the
storage entry, and its export outcome depends only on the current trip
list, not on the storage (it reads the list independent of the mutation
path). -/
theorem claim_c10_export_readonly (tr : List Json) (p q : Payload) :
    (onSave { trips := tr, storage := p }).1 = { trips := tr, storage := p } ∧
    (onSave { trips := tr, storage := p }).2 = (onSave { trips := tr, storage := q }).2 := by
  unfold onSave
  by_cases h : tr.length = 0
  · rw [if_pos h]
    exact ⟨rfl, by rw [if_pos h]⟩
  · rw [if_neg h]
    exact ⟨rfl, by rw [if_neg h]⟩

end Itin
